import Mathlib

/-!
Verification development for a small party-tracker dashboard (src/app.py).

The app keeps a single record of six string fields and stores it in one of
three backends (GitHub gist, Google Sheets, local CSV file), selected by
configuration presence.  Edit access is gated by a shared secret compared
against a URL query parameter.  Below, the non-UI core of the program is
shallowly embedded: pure string/record manipulation is translated directly,
and the effectful parts (HTTP fetches, worksheet reads, file existence) are
made explicit as fields of a world structure that records each call's outcome.
-/

namespace PartyTracker

/-! ## Python string stripping

Both the access gate and write normalization call Python str.strip, which
removes leading and trailing whitespace.  We model the ASCII whitespace
characters Python strips. -/

def isPySpace (c : Char) : Bool :=
  c = ' ' || c = '\t' || c = '\n' || c = '\r' || c = '\x0b' || c = '\x0c'

def pyStrip (s : String) : String :=
  ⟨List.reverse (List.dropWhile isPySpace (List.reverse (List.dropWhile isPySpace s.data)))⟩

/-! ## Data model (src/app.py lines 148-157) -/

def PARTY_FIELDS : List String :=
  ["Level", "Session Date", "Location", "What Happened Last", "Quest Hooks", "Loot/Rewards"]

def CSV_FALLBACK_PATH : String := "party_state.csv"

/-- A record is an association list from field names to string values; a Python
dict built from key/value pairs keeps the last binding for a repeated key. -/
abbrev Record := List (String × String)

/-- Lookup in a Python dict built from the pairs in order (later bindings win),
with a default for a missing key: models d.get(k, default). -/
def dictGet (d : Record) (k : String) (default : String) : String :=
  match List.find? (fun p => p.1 == k) d.reverse with
  | some p => p.2
  | none => default

/-- Embeds the comprehension pattern used on every read path
(src/app.py lines 239, 253-256, 264): re-project a raw mapping onto the
canonical field list, defaulting absent keys to the empty string. -/
def projectRecord (raw : Record) : Record :=
  PARTY_FIELDS.map (fun k => (k, dictGet raw k ""))

/-- src/app.py lines 226-227: the all-empty default record. -/
def defaults : Record :=
  PARTY_FIELDS.map (fun k => (k, ""))

/-- src/app.py line 271: data = \x7bk: str(data.get(k, "")).strip() for k in PARTY_FIELDS\x7d. -/
def normalizeWrite (raw : Record) : Record :=
  PARTY_FIELDS.map (fun k => (k, pyStrip (dictGet raw k "")))

/-- The values of a record in canonical field order (src/app.py line 291). -/
def partyValues (data : Record) : List String :=
  PARTY_FIELDS.map (fun k => dictGet data k "")

/-! ## CSV text model

The program serializes with csv.DictWriter (default dialect: comma delimiter,
CRLF line terminator, minimal quoting) and parses with csv.DictReader over
str.splitlines.  We model the serialized text for conflict-free cell values:
a cell that contains none of the characters that would force quoting or extra
line splits (comma, double quote, CR, LF, and the extra characters splitlines
treats as line breaks) is written verbatim. -/

def RESERVED (c : Char) : Bool :=
  c = ',' || c = '"' || c = '\n' || c = '\r' || c = '\x0b' || c = '\x0c' ||
  c = '\x1c' || c = '\x1d' || c = '\x1e' || c = '\x85' || c = '\u2028' || c = '\u2029'

/-- A cell value that the csv writer emits verbatim and the splitlines-based
reader recovers intact. -/
def CELL_OK (s : String) : Bool := s.data.all (fun c => !(RESERVED c))

/-- A stored row our delimited-text model treats exactly as Python csv does:
nonempty, not the special single-empty-cell row (which Python quotes), all
cells conflict-free. -/
def RowOK (r : List String) : Prop :=
  r ≠ [] ∧ r ≠ [""] ∧ ∀ s ∈ r, CELL_OK s = true

/-- Join a row's cells with commas (csv writer, minimal quoting, no quoting
needed for conflict-free cells). -/
def joinRowChars : List String → List Char
  | [] => []
  | s :: rest =>
    s.data ++ (match rest with
               | [] => []
               | _ :: _ => ',' :: joinRowChars rest)

/-- Each row followed by the csv default CRLF line terminator. -/
def serializeRowsChars : List (List String) → List Char
  | [] => []
  | r :: rest => joinRowChars r ++ '\r' :: '\n' :: serializeRowsChars rest

def serializeRows (rows : List (List String)) : String :=
  ⟨serializeRowsChars rows⟩

/-- The CSV text write_party produces for an already-normalized record:
header row then the single data row (src/app.py lines 276-279, 296-299). -/
def serializeParty (data : Record) : String :=
  serializeRows [PARTY_FIELDS, partyValues data]

/-- Split one line into cells at commas: models the csv reader on a line of
conflict-free cells (and Python str.split on a comma). -/
def splitCellsAux : List Char → List Char → List String
  | [], acc => [⟨acc.reverse⟩]
  | c :: rest, acc =>
    if c = ',' then ⟨acc.reverse⟩ :: splitCellsAux rest []
    else splitCellsAux rest (c :: acc)

def splitCells (s : String) : List String :=
  splitCellsAux s.data []

/-- Models Python str.splitlines for text whose line breaks are CR, LF or
CRLF: no trailing empty line, CRLF counts as a single break. -/
def splitLinesAux : List Char → List Char → List String
  | [], acc => if acc.isEmpty then [] else [⟨acc.reverse⟩]
  | [c], acc =>
    if c = '\n' then [⟨acc.reverse⟩]
    else if c = '\r' then [⟨acc.reverse⟩]
    else [⟨(c :: acc).reverse⟩]
  | c1 :: c2 :: rest, acc =>
    if c1 = '\n' then ⟨acc.reverse⟩ :: splitLinesAux (c2 :: rest) []
    else if c1 = '\r' then
      if c2 = '\n' then ⟨acc.reverse⟩ :: splitLinesAux rest []
      else ⟨acc.reverse⟩ :: splitLinesAux (c2 :: rest) []
    else splitLinesAux (c2 :: rest) (c1 :: acc)

def splitLines (s : String) : List String :=
  splitLinesAux s.data []

/-- The rows of a delimited text: lines, each split into cells. -/
def parseRows (t : String) : List (List String) :=
  (splitLines t).map splitCells

/-- csv.DictReader followed by the first-row comprehension: header row is the
first line, the first data row is projected onto the canonical fields via
dict(zip(header, row)) semantics; fewer than two rows means no record
(src/app.py lines 236-240, 262-264). -/
def parseCsvRecord (t : String) : Option Record :=
  match parseRows t with
  | header :: r :: _ => some (projectRecord (List.zip header r))
  | _ => none

/-- src/app.py lines 258-267: the local CSV fallback; a missing file (or a
file with no data row) yields the default record. -/
def readLocalFile (file : Option String) : Record :=
  match file with
  | none => defaults
  | some t => (parseCsvRecord t).getD defaults

/-! ## Configuration and backend selection -/

/-- Configuration values; the empty string models an absent value, matching
Python truthiness in use_gist and use_gsheets. -/
structure Config where
  gistToken : String
  gistId : String
  gistFilename : String
  gsheetsSaJson : String
  gsheetsSheetName : String
deriving DecidableEq

/-- src/app.py lines 162-164. -/
def use_gist (c : Config) : Bool :=
  !(c.gistToken == "") && !(c.gistId == "") && !(c.gistFilename == "")

/-- src/app.py lines 199-200. -/
def use_gsheets (c : Config) : Bool :=
  !(c.gsheetsSaJson == "") && !(c.gsheetsSheetName == "")

inductive Backend where
  | gist
  | gsheets
  | localCsv
deriving DecidableEq

/-- Whether a backend's configuration values are all present; the local file
needs none. -/
def backendConfigured (c : Config) : Backend → Bool
  | .gist => use_gist c
  | .gsheets => use_gsheets c
  | .localCsv => true

/-- The fixed priority order of backends. -/
def priorityOrder : List Backend := [.gist, .gsheets, .localCsv]

/-- The backend the guard sequence of read_party and write_party commits to
first (src/app.py lines 232, 245, 258 and 274, 286, 294). -/
def selectBackend (c : Config) : Backend :=
  if use_gist c then .gist else if use_gsheets c then .gsheets else .localCsv

/-! ## read_party over an explicit world -/

/-- Outcome-level view of the effectful calls a single read can make.
gist is the outcome of the fetch in src/app.py line 234 (the CSV text, or the
message of the exception it raised); sheetsClient is none when worksheet
construction failed inside the cached helper (which warns and returns None,
src/app.py lines 202-224), and otherwise carries the outcome of
ws.get_all_values(); localFile is the content of the fallback CSV file, none
when it does not exist. -/
structure World where
  cfg : Config
  gist : Except String String
  sheetsClient : Option (Except String (List (List String)))
  localFile : Option String

def gistReadWarning (e : String) : String := "Gist read failed: " ++ e

def gsheetsWarning : String := "Google Sheets not available"

/-- Steps 2 and 3 of read_party (src/app.py lines 244-267): Google Sheets if
configured, then the local CSV file.  Returns the warnings emitted and either
the record or the message of an uncaught exception. -/
def readPartyFallback (w : World) : List String × Except String Record :=
  if use_gsheets w.cfg then
    match w.sheetsClient with
    | none => ([gsheetsWarning], .ok (readLocalFile w.localFile))
    | some (.error e) => ([], .error e)
    | some (.ok vals) =>
      if vals.length < 2 then ([], .ok defaults)
      else
        match vals with
        | header :: row :: _ => ([], .ok (projectRecord (List.zip header row)))
        | _ => ([], .ok defaults)
  else ([], .ok (readLocalFile w.localFile))

/-- src/app.py lines 229-267.  Step 1 tries the gist when configured: a fetch
exception is caught with one warning and execution falls through; fetched text
that is whitespace-only also falls through; otherwise the first data row (or
the defaults when there is none) is returned. -/
def readParty (w : World) : List String × Except String Record :=
  if use_gist w.cfg then
    match w.gist with
    | .ok text =>
      if pyStrip text = "" then readPartyFallback w
      else ([], .ok ((parseCsvRecord text).getD defaults))
    | .error e =>
      ((gistReadWarning e) :: (readPartyFallback w).1, (readPartyFallback w).2)
  else readPartyFallback w

/-! ## write_party over an explicit world -/

/-- Outcomes of the effectful calls a write can make: whether the gist patch
succeeds, whether the worksheet handle is available, and whether the local
file is writable. -/
structure WriteWorld where
  cfg : Config
  gistOk : Bool
  sheetsWs : Bool
  localOk : Bool

/-- What the chosen backend is asked to store. -/
inductive StoreEffect where
  | gistPatch (content : String)
  | sheetsReplace (rows : List (List String))
  | localWrite (content : String)
deriving DecidableEq

def gistWriteError : String := "Gist write failed"

def csvWriteError : String := "Could not save CSV"

/-- src/app.py lines 294-301: write the local CSV file, or report an error
with no effect. -/
def writeLocalStep (ww : WriteWorld) (data : Record) : List String × Option StoreEffect :=
  if ww.localOk then ([], some (.localWrite (serializeParty data)))
  else ([csvWriteError], none)

/-- src/app.py lines 285-301: Google Sheets when configured (clear, header
row, data row), otherwise the local file; a failed worksheet handle warns and
falls through to the file. -/
def writeFallback (ww : WriteWorld) (data : Record) : List String × Option StoreEffect :=
  if use_gsheets ww.cfg then
    if ww.sheetsWs then ([], some (.sheetsReplace [PARTY_FIELDS, partyValues data]))
    else
      ((gsheetsWarning) :: (writeLocalStep ww data).1, (writeLocalStep ww data).2)
  else writeLocalStep ww data

/-- src/app.py lines 269-301: normalize the record, then try gist (a failed
patch reports an error and falls through), then Sheets, then the local file. -/
def writeParty (ww : WriteWorld) (raw : Record) : List String × Option StoreEffect :=
  if use_gist ww.cfg then
    if ww.gistOk then ([], some (.gistPatch (serializeParty (normalizeWrite raw))))
    else
      ((gistWriteError) :: (writeFallback ww (normalizeWrite raw)).1,
        (writeFallback ww (normalizeWrite raw)).2)
  else writeFallback ww (normalizeWrite raw)

/-! ## Access gate (src/app.py lines 322-343) -/

/-- src/app.py lines 329-336: the EDIT_KEY is the stripped environment value
when the raw environment value is nonempty, else the stripped secrets value
(a secrets-store exception is modelled by passing "" for secretsKey, as the
except branch returns ""). -/
def getEditKey (envKey : String) (secretsKey : String) : String :=
  if envKey ≠ "" then pyStrip envKey else pyStrip secretsKey

/-- src/app.py lines 322-326 and 337-338: the provided query parameter is
stripped, and edit mode requires a nonempty EDIT_KEY equal to it. -/
def canEdit (envKey : String) (secretsKey : String) (param : String) : Bool :=
  !(getEditKey envKey secretsKey == "") &&
    (pyStrip param == getEditKey envKey secretsKey)

/-! ## Representative configurations -/

def emptyConfig : Config := ⟨"", "", "", "", ""⟩

def gistConfig : Config := ⟨"tok", "id", "file.csv", "", ""⟩

def sheetsConfig : Config := ⟨"", "", "", "sa-json", "SheetName"⟩

end PartyTracker

namespace PartyTracker

/-! ## Helper lemmas -/

theorem stringMk_data (s : String) : (⟨s.data⟩ : String) = s := rfl

theorem mem_dropWhile_of_neg (p : Char → Bool) (l : List Char) (c : Char)
    (hc : c ∈ l) (hp : p c = false) : c ∈ l.dropWhile p := by
  induction l with
  | nil => cases hc
  | cons a t ih =>
    rw [List.dropWhile_cons]
    by_cases h : p a = true
    · rw [if_pos h]
      rcases List.mem_cons.mp hc with rfl | ht
      · rw [hp] at h; exact absurd h (by decide)
      · exact ih ht
    · rw [if_neg h]; exact hc

theorem pyStrip_ne_empty_of_mem {l : List Char} {c : Char}
    (hc : c ∈ l) (hsp : isPySpace c = false) : pyStrip ⟨l⟩ ≠ "" := by
  intro h
  have h1 : c ∈ List.dropWhile isPySpace l := mem_dropWhile_of_neg _ _ _ hc hsp
  have h2 : c ∈ List.dropWhile isPySpace (List.reverse (List.dropWhile isPySpace l)) :=
    mem_dropWhile_of_neg _ _ _ (List.mem_reverse.mpr h1) hsp
  have h3 : List.reverse (List.dropWhile isPySpace (List.reverse (List.dropWhile isPySpace l))) =
      ([] : List Char) := congrArg String.data h
  rw [List.reverse_eq_nil_iff] at h3
  rw [h3] at h2
  cases h2

theorem cellOK_char {s : String} (h : CELL_OK s = true) {c : Char} (hc : c ∈ s.data) :
    RESERVED c = false := by
  have := List.all_eq_true.mp h c hc
  simpa using this

theorem reserved_comma {c : Char} (h : RESERVED c = false) : ¬(c = ',') := by
  rintro rfl; exact absurd h (by decide)

theorem reserved_cr {c : Char} (h : RESERVED c = false) : ¬(c = '\r') := by
  rintro rfl; exact absurd h (by decide)

theorem reserved_lf {c : Char} (h : RESERVED c = false) : ¬(c = '\n') := by
  rintro rfl; exact absurd h (by decide)

theorem splitCellsAux_append (s : List Char) (more : List Char) (acc : List Char)
    (h : ∀ c ∈ s, ¬(c = ',')) :
    splitCellsAux (s ++ ',' :: more) acc = ⟨acc.reverse ++ s⟩ :: splitCellsAux more [] := by
  induction s generalizing acc with
  | nil => simp [splitCellsAux]
  | cons a s ih =>
    have ha : ¬(a = ',') := h a (by simp)
    simp only [List.cons_append, splitCellsAux, if_neg ha, List.append_eq]
    rw [ih (a :: acc) (fun c hc => h c (by simp [hc]))]
    simp

theorem splitCellsAux_no_comma (s : List Char) (acc : List Char)
    (h : ∀ c ∈ s, ¬(c = ',')) : splitCellsAux s acc = [⟨acc.reverse ++ s⟩] := by
  induction s generalizing acc with
  | nil => simp [splitCellsAux]
  | cons a s ih =>
    have ha : ¬(a = ',') := h a (by simp)
    simp only [splitCellsAux, if_neg ha]
    rw [ih (a :: acc) (fun c hc => h c (by simp [hc]))]
    simp

theorem mem_joinRowChars : ∀ {cells : List String} {c : Char},
    c ∈ joinRowChars cells → c = ',' ∨ ∃ s ∈ cells, c ∈ s.data
  | [], c, h => by simp [joinRowChars] at h
  | [s], c, h => by
    simp only [joinRowChars, List.append_nil] at h
    exact Or.inr ⟨s, by simp, h⟩
  | s :: t :: ts, c, h => by
    have hj : joinRowChars (s :: t :: ts) = s.data ++ ',' :: joinRowChars (t :: ts) := rfl
    rw [hj] at h
    rcases List.mem_append.mp h with h1 | h2
    · exact Or.inr ⟨s, by simp, h1⟩
    · rcases List.mem_cons.mp h2 with rfl | h3
      · exact Or.inl rfl
      · rcases mem_joinRowChars h3 with h4 | ⟨u, hu, hcu⟩
        · exact Or.inl h4
        · exact Or.inr ⟨u, List.mem_cons_of_mem _ hu, hcu⟩

theorem splitCells_joinRow : ∀ (r : List String), r ≠ [] →
    (∀ s ∈ r, CELL_OK s = true) → splitCellsAux (joinRowChars r) [] = r
  | [], h, _ => absurd rfl h
  | [s], _, hok => by
    simp only [joinRowChars, List.append_nil]
    rw [splitCellsAux_no_comma s.data []
      (fun c hc => reserved_comma (cellOK_char (hok s (by simp)) hc))]
    simp [stringMk_data]
  | s :: t :: ts, _, hok => by
    have hj : joinRowChars (s :: t :: ts) = s.data ++ ',' :: joinRowChars (t :: ts) := rfl
    rw [hj]
    rw [splitCellsAux_append s.data (joinRowChars (t :: ts)) []
      (fun c hc => reserved_comma (cellOK_char (hok s (by simp)) hc))]
    rw [splitCells_joinRow (t :: ts) (by simp) (fun u hu => hok u (List.mem_cons_of_mem _ hu))]
    simp [stringMk_data]

theorem splitLinesAux_crlf : ∀ (l : List Char) (rest acc : List Char),
    (∀ c ∈ l, ¬(c = '\r') ∧ ¬(c = '\n')) →
    splitLinesAux (l ++ '\r' :: '\n' :: rest) acc = ⟨acc.reverse ++ l⟩ :: splitLinesAux rest []
  | [], rest, acc, _ => by
    have h0 : splitLinesAux ('\r' :: '\n' :: rest) acc = ⟨acc.reverse⟩ :: splitLinesAux rest [] := rfl
    simpa using h0
  | [a], rest, acc, h => by
    have ha := h a (by simp)
    have h1 : splitLinesAux (a :: '\r' :: '\n' :: rest) acc =
        splitLinesAux ('\r' :: '\n' :: rest) (a :: acc) := by
      simp only [splitLinesAux, if_neg ha.2, if_neg ha.1]
    have h0 : splitLinesAux ('\r' :: '\n' :: rest) (a :: acc) =
        ⟨(a :: acc).reverse⟩ :: splitLinesAux rest [] := rfl
    simp only [List.cons_append, List.nil_append, h1, h0, List.reverse_cons]
  | a :: b :: l, rest, acc, h => by
    have ha := h a (by simp)
    have h1 : splitLinesAux (a :: b :: (l ++ '\r' :: '\n' :: rest)) acc =
        splitLinesAux (b :: (l ++ '\r' :: '\n' :: rest)) (a :: acc) := by
      simp only [splitLinesAux, if_neg ha.2, if_neg ha.1]
    have h2 := splitLinesAux_crlf (b :: l) rest (a :: acc)
      (fun c hc => h c (List.mem_cons_of_mem _ hc))
    simp only [List.cons_append] at h2 ⊢
    rw [h1, h2]
    simp

theorem joinRow_line_free {r : List String} (hok : ∀ s ∈ r, CELL_OK s = true) :
    ∀ c ∈ joinRowChars r, ¬(c = '\r') ∧ ¬(c = '\n') := by
  intro c hc
  rcases mem_joinRowChars hc with rfl | ⟨s, hs, hcs⟩
  · exact ⟨by decide, by decide⟩
  · have := cellOK_char (hok s hs) hcs
    exact ⟨reserved_cr this, reserved_lf this⟩

theorem parseRows_serializeRows : ∀ (rows : List (List String)),
    (∀ r ∈ rows, r ≠ [] ∧ ∀ s ∈ r, CELL_OK s = true) →
    parseRows (serializeRows rows) = rows
  | [], _ => rfl
  | r :: rows, h => by
    have hr := h r (by simp)
    have hlines : splitLinesAux (joinRowChars r ++ '\r' :: '\n' :: serializeRowsChars rows) [] =
        ⟨joinRowChars r⟩ :: splitLinesAux (serializeRowsChars rows) [] := by
      have := splitLinesAux_crlf (joinRowChars r) (serializeRowsChars rows) []
        (joinRow_line_free hr.2)
      simpa using this
    have htail := parseRows_serializeRows rows (fun u hu => h u (List.mem_cons_of_mem _ hu))
    simp only [parseRows, serializeRows, splitLines, serializeRowsChars] at htail ⊢
    rw [hlines]
    simp only [List.map_cons]
    rw [htail]
    have hcells : splitCells ⟨joinRowChars r⟩ = r :=
      splitCells_joinRow r hr.1 hr.2
    rw [hcells]

end PartyTracker

namespace PartyTracker

theorem keys_map_pairs (f : String → String) :
    (PARTY_FIELDS.map (fun k => (k, f k))).map Prod.fst = PARTY_FIELDS := by
  simp only [List.map_map]
  exact List.map_id PARTY_FIELDS

theorem keys_defaults : defaults.map Prod.fst = PARTY_FIELDS := keys_map_pairs _

theorem keys_projectRecord (raw : Record) : (projectRecord raw).map Prod.fst = PARTY_FIELDS :=
  keys_map_pairs _

theorem keys_parseCsvRecord (t : String) :
    ((parseCsvRecord t).getD defaults).map Prod.fst = PARTY_FIELDS := by
  unfold parseCsvRecord
  split
  · simp only [Option.getD_some]
    exact keys_projectRecord _
  · exact keys_defaults

theorem keys_readLocalFile (f : Option String) :
    (readLocalFile f).map Prod.fst = PARTY_FIELDS := by
  cases f with
  | none => exact keys_defaults
  | some t => exact keys_parseCsvRecord t

theorem readPartyFallback_keys (w : World) (ws : List String) (r : Record)
    (h : readPartyFallback w = (ws, .ok r)) : r.map Prod.fst = PARTY_FIELDS := by
  unfold readPartyFallback at h
  split at h
  · split at h
    · simp only [Prod.mk.injEq, Except.ok.injEq] at h
      rw [← h.2]; exact keys_readLocalFile _
    · simp at h
    · split at h
      · simp only [Prod.mk.injEq, Except.ok.injEq] at h
        rw [← h.2]; exact keys_defaults
      · split at h
        · simp only [Prod.mk.injEq, Except.ok.injEq] at h
          rw [← h.2]; exact keys_projectRecord _
        · simp only [Prod.mk.injEq, Except.ok.injEq] at h
          rw [← h.2]; exact keys_defaults
  · simp only [Prod.mk.injEq, Except.ok.injEq] at h
    rw [← h.2]; exact keys_readLocalFile _

theorem readParty_keys (w : World) (ws : List String) (r : Record)
    (h : readParty w = (ws, .ok r)) : r.map Prod.fst = PARTY_FIELDS := by
  unfold readParty at h
  split at h
  · split at h
    · split at h
      · exact readPartyFallback_keys w ws r h
      · simp only [Prod.mk.injEq, Except.ok.injEq] at h
        rw [← h.2]; exact keys_parseCsvRecord _
    · simp only [Prod.mk.injEq] at h
      refine readPartyFallback_keys w (readPartyFallback w).1 r ?_
      rw [← h.2]
  · exact readPartyFallback_keys w ws r h

theorem rowOK_party (raw : Record)
    (hok : ∀ k ∈ PARTY_FIELDS, CELL_OK (pyStrip (dictGet raw k "")) = true) :
    ∀ r ∈ [PARTY_FIELDS, partyValues (normalizeWrite raw)],
      r ≠ [] ∧ ∀ s ∈ r, CELL_OK s = true := by
  have hv : partyValues (normalizeWrite raw) =
      PARTY_FIELDS.map (fun k => pyStrip (dictGet raw k "")) := rfl
  intro r hr
  rcases List.mem_cons.mp hr with rfl | hr2
  · exact ⟨by decide, by decide⟩
  · rcases List.mem_cons.mp hr2 with rfl | hr3
    · constructor
      · rw [hv]; simp [PARTY_FIELDS]
      · intro s hs
        rw [hv] at hs
        rcases List.mem_map.mp hs with ⟨k, hk, rfl⟩
        exact hok k hk
    · cases hr3

theorem parse_write_roundtrip (raw : Record)
    (hok : ∀ k ∈ PARTY_FIELDS, CELL_OK (pyStrip (dictGet raw k "")) = true) :
    parseCsvRecord (serializeParty (normalizeWrite raw)) = some (normalizeWrite raw) := by
  have hrows : parseRows (serializeParty (normalizeWrite raw)) =
      [PARTY_FIELDS, partyValues (normalizeWrite raw)] :=
    parseRows_serializeRows _ (rowOK_party raw hok)
  unfold parseCsvRecord
  rw [hrows]
  rfl

theorem serializeParty_strip_ne (data : Record) : pyStrip (serializeParty data) ≠ "" := by
  have hmem : 'L' ∈ serializeRowsChars [PARTY_FIELDS, partyValues data] := by
    have hs : serializeRowsChars [PARTY_FIELDS, partyValues data] =
        joinRowChars PARTY_FIELDS ++ '\r' :: '\n' :: serializeRowsChars [partyValues data] := rfl
    rw [hs]
    exact List.mem_append_left _ (by decide)
  exact pyStrip_ne_empty_of_mem hmem (by decide)

theorem readParty_gist_ok (w : World) (text : String)
    (hg : use_gist w.cfg = true) (ht : w.gist = .ok text) (hne : ¬(pyStrip text = "")) :
    readParty w = ([], .ok ((parseCsvRecord text).getD defaults)) := by
  unfold readParty
  rw [hg, ht]
  simp [hne]

theorem readParty_gist_err (w : World) (e : String)
    (hg : use_gist w.cfg = true) (ht : w.gist = .error e) :
    readParty w = (gistReadWarning e :: (readPartyFallback w).1, (readPartyFallback w).2) := by
  unfold readParty
  rw [hg, ht]
  rfl

theorem readPartyFallback_no_sheets (w : World) (hn : use_gsheets w.cfg = false) :
    readPartyFallback w = ([], .ok (readLocalFile w.localFile)) := by
  unfold readPartyFallback
  rw [hn]
  rfl

theorem readPartyFallback_client_none (w : World) (hy : use_gsheets w.cfg = true)
    (hc : w.sheetsClient = none) :
    readPartyFallback w = ([gsheetsWarning], .ok (readLocalFile w.localFile)) := by
  unfold readPartyFallback
  rw [hy, hc]
  rfl

theorem normalizeWrite_lookup (raw : Record) (k : String) (hk : k ∈ PARTY_FIELDS) :
    dictGet (normalizeWrite raw) k "" = pyStrip (dictGet raw k "") := by
  have : k ∈ ["Level", "Session Date", "Location", "What Happened Last",
      "Quest Hooks", "Loot/Rewards"] := hk
  rcases this with _ | ⟨_, _ | ⟨_, _ | ⟨_, _ | ⟨_, _ | ⟨_, _ | ⟨_, h⟩⟩⟩⟩⟩⟩
  · rfl
  · rfl
  · rfl
  · rfl
  · rfl
  · rfl
  · cases h

end PartyTracker

namespace PartyTracker

theorem pyStrip_empty : pyStrip "" = "" := rfl

/-! ## Claims -/

/-- C1, counterexample: the claim says edit mode is granted if and only if the
provided parameter is exactly equal to the non-empty configured secret.  With
the configured secret "abc " (trailing space) and the parameter "abc" the two
strings are not equal, yet the gate grants edit mode, because both sides are
whitespace-stripped before comparison (src/app.py lines 323, 326, 332, 334). -/
theorem C1_gate_exact_match_counterexample :
    canEdit "abc " "" "abc" = true ∧ ¬(("abc" : String) = "abc ") := by
  constructor
  · rfl
  · decide

/-- C1 (amended): edit mode is granted if and only if the whitespace-stripped
configured secret is non-empty and the whitespace-stripped provided parameter
is exactly equal to it; the comparison of the stripped strings is
case-sensitive exact string equality.  In particular an empty (or
whitespace-only) configured secret yields edit mode false for every
parameter. -/
theorem C1_gate_amended (envKey secretsKey param : String) :
    canEdit envKey secretsKey param = true ↔
      (getEditKey envKey secretsKey ≠ "" ∧ pyStrip param = getEditKey envKey secretsKey) := by
  unfold canEdit
  simp only [Bool.and_eq_true, Bool.not_eq_true', beq_eq_false_iff_ne, ne_eq, beq_iff_eq]

/-- C2, counterexample: the claim says every exception thrown by a remote
backend call during a read is caught, warned about once, and triggers
fallback.  An exception raised by the worksheet values fetch after successful
client construction (src/app.py line 248 is outside any try block) propagates
to the caller with no warning and no fallback. -/
theorem C2_read_exception_counterexample :
    readParty ⟨sheetsConfig, .ok "", some (.error "boom"), none⟩ = ([], .error "boom") := rfl

/-- C2 (amended): an exception thrown by the remote snippet-store fetch during
a read is caught and not raised to the caller, exactly one non-fatal warning
is emitted for it, and the read falls back to the next backend in priority
order (spreadsheet service if configured, then the local file); a failure to
construct the spreadsheet client likewise adds exactly one warning and falls
back to the local file.  An exception from the spreadsheet values fetch after
successful client construction, however, is not caught. -/
theorem C2_read_fallback_amended (w : World) (e : String)
    (hg : use_gist w.cfg = true) (hf : w.gist = .error e) :
    readParty w = (gistReadWarning e :: (readPartyFallback w).1, (readPartyFallback w).2)
    ∧ (use_gsheets w.cfg = false →
        readParty w = ([gistReadWarning e], .ok (readLocalFile w.localFile)))
    ∧ (use_gsheets w.cfg = true → w.sheetsClient = none →
        readParty w = ([gistReadWarning e, gsheetsWarning], .ok (readLocalFile w.localFile))) := by
  refine ⟨readParty_gist_err w e hg hf, ?_, ?_⟩
  · intro hn
    rw [readParty_gist_err w e hg hf, readPartyFallback_no_sheets w hn]
  · intro hy hc
    rw [readParty_gist_err w e hg hf, readPartyFallback_client_none w hy hc]

/-- C2 witness: a concrete world in which the gist fetch raises and the read
falls back to the (absent) local file with exactly one warning. -/
theorem C2_read_fallback_amended_witness :
    readParty ⟨gistConfig, .error "net down", none, none⟩ =
      ([gistReadWarning "net down"], .ok (readLocalFile none)) :=
  (C2_read_fallback_amended ⟨gistConfig, .error "net down", none, none⟩ "net down"
    rfl rfl).2.1 rfl

/-- C3: for every record whose normalized field values contain no
backend-reserved delimiter characters, writing it with write_party and reading
it back with read_party on the same backend (gist, spreadsheet, or local file)
yields exactly the written record after normalization. -/
theorem C3_write_read_roundtrip (raw : Record)
    (hok : ∀ k ∈ PARTY_FIELDS, CELL_OK (pyStrip (dictGet raw k "")) = true) :
    (∀ content : String,
      (writeParty ⟨gistConfig, true, true, true⟩ raw).2 = some (.gistPatch content) →
      (readParty ⟨gistConfig, .ok content, none, none⟩).2 = .ok (normalizeWrite raw))
    ∧ (∀ rows : List (List String),
      (writeParty ⟨sheetsConfig, true, true, true⟩ raw).2 = some (.sheetsReplace rows) →
      (readParty ⟨sheetsConfig, .ok "", some (.ok rows), none⟩).2 = .ok (normalizeWrite raw))
    ∧ (∀ content : String,
      (writeParty ⟨emptyConfig, true, true, true⟩ raw).2 = some (.localWrite content) →
      (readParty ⟨emptyConfig, .ok "", none, some content⟩).2 = .ok (normalizeWrite raw)) := by
  refine ⟨?_, ?_, ?_⟩
  · intro content hc
    have hw : (writeParty ⟨gistConfig, true, true, true⟩ raw).2 =
        some (.gistPatch (serializeParty (normalizeWrite raw))) := rfl
    rw [hw] at hc
    simp only [Option.some.injEq, StoreEffect.gistPatch.injEq] at hc
    subst hc
    have hr := readParty_gist_ok ⟨gistConfig, .ok (serializeParty (normalizeWrite raw)), none, none⟩
      (serializeParty (normalizeWrite raw)) rfl rfl (serializeParty_strip_ne _)
    rw [hr]
    show Except.ok ((parseCsvRecord (serializeParty (normalizeWrite raw))).getD defaults) =
      Except.ok (normalizeWrite raw)
    rw [parse_write_roundtrip raw hok]
    rfl
  · intro rows hc
    have hw : (writeParty ⟨sheetsConfig, true, true, true⟩ raw).2 =
        some (.sheetsReplace [PARTY_FIELDS, partyValues (normalizeWrite raw)]) := rfl
    rw [hw] at hc
    simp only [Option.some.injEq, StoreEffect.sheetsReplace.injEq] at hc
    subst hc
    rfl
  · intro content hc
    have hw : (writeParty ⟨emptyConfig, true, true, true⟩ raw).2 =
        some (.localWrite (serializeParty (normalizeWrite raw))) := rfl
    rw [hw] at hc
    simp only [Option.some.injEq, StoreEffect.localWrite.injEq] at hc
    subst hc
    show Except.ok ((parseCsvRecord (serializeParty (normalizeWrite raw))).getD defaults) =
      Except.ok (normalizeWrite raw)
    rw [parse_write_roundtrip raw hok]
    rfl

/-- C3 witness: a concrete conflict-free record round trips through the gist
backend. -/
theorem C3_write_read_roundtrip_witness :
    (readParty ⟨gistConfig,
      .ok (serializeParty (normalizeWrite [("Level", "3"), ("Location", "Phandalin")])),
      none, none⟩).2 = .ok (normalizeWrite [("Level", "3"), ("Location", "Phandalin")]) :=
  (C3_write_read_roundtrip [("Level", "3"), ("Location", "Phandalin")] (by decide)).1 _ rfl

/-- C4: reads and writes commit to a backend in the fixed priority order gist,
then spreadsheet, then local file, taking the first whose configuration values
are all present; with no backend configured both operations use the local file
unconditionally, and backend selection itself is total (it never errors). -/
theorem C4_backend_selection :
    (∀ c : Config,
      selectBackend c = (priorityOrder.find? (fun b => backendConfigured c b)).getD Backend.localCsv)
    ∧ (∀ c : Config, backendConfigured c Backend.localCsv = true)
    ∧ (∀ w : World, use_gist w.cfg = false → use_gsheets w.cfg = false →
        readParty w = ([], .ok (readLocalFile w.localFile)))
    ∧ (∀ (ww : WriteWorld) (raw : Record), use_gist ww.cfg = false → use_gsheets ww.cfg = false →
        ww.localOk = true →
        writeParty ww raw = ([], some (.localWrite (serializeParty (normalizeWrite raw))))) := by
  refine ⟨?_, fun c => rfl, ?_, ?_⟩
  · intro c
    unfold selectBackend priorityOrder
    cases hg : use_gist c
    · cases hs : use_gsheets c
      · simp [List.find?, backendConfigured, hg, hs]
      · simp [List.find?, backendConfigured, hg, hs]
    · simp [List.find?, backendConfigured, hg]
  · intro w h1 h2
    have h3 : readParty w = readPartyFallback w := by
      unfold readParty
      rw [h1]
      rfl
    rw [h3]
    exact readPartyFallback_no_sheets w h2
  · intro ww raw h1 h2 h3
    unfold writeParty writeFallback writeLocalStep
    rw [h1, h2, h3]
    rfl

/-- C4 witness: with nothing configured a read uses the local file and a write
creates it. -/
theorem C4_backend_selection_witness :
    readParty ⟨emptyConfig, .ok "", none, none⟩ = ([], .ok (readLocalFile none)) ∧
    writeParty ⟨emptyConfig, false, false, true⟩ defaults =
      ([], some (.localWrite (serializeParty (normalizeWrite defaults)))) :=
  ⟨C4_backend_selection.2.2.1 ⟨emptyConfig, .ok "", none, none⟩ rfl rfl,
   C4_backend_selection.2.2.2 ⟨emptyConfig, false, false, true⟩ defaults rfl rfl rfl⟩

/-- C5, counterexample: the claim says a numeric-declared field value "5.0"
is coerced to "5" during normalization.  The program performs no numeric
coercion anywhere in its read or write paths: writing ("Level", "5.0") and
reading it back yields "5.0" unchanged, which is not "5". -/
theorem C5_numeric_coercion_counterexample :
    dictGet (readLocalFile (some (serializeParty (normalizeWrite [("Level", "5.0")]))))
      "Level" "" = "5.0" ∧ ¬(("5.0" : String) = "5") := by
  constructor
  · rfl
  · decide

/-- C5 (amended): normalization performs no numeric coercion: each canonical
field value passes through write normalization changed only by whitespace
stripping, with no error raised on any value; in particular "5.0" stays
"5.0", "abc" stays "abc", and the empty string stays empty. -/
theorem C5_no_coercion_amended :
    (∀ (raw : Record) (k : String), k ∈ PARTY_FIELDS →
      dictGet (normalizeWrite raw) k "" = pyStrip (dictGet raw k ""))
    ∧ dictGet (normalizeWrite [("Level", "5.0")]) "Level" "" = "5.0"
    ∧ dictGet (normalizeWrite [("Level", "abc")]) "Level" "" = "abc"
    ∧ dictGet (normalizeWrite [("Level", "")]) "Level" "" = "" :=
  ⟨fun raw k hk => normalizeWrite_lookup raw k hk, rfl, rfl, rfl⟩

/-- C5 witness: the normalization of a concrete record at the Level field is
exactly the stripped raw value. -/
theorem C5_no_coercion_amended_witness :
    dictGet (normalizeWrite [("Level", " 7 ")]) "Level" "" =
      pyStrip (dictGet [("Level", " 7 ")] "Level" "") :=
  C5_no_coercion_amended.1 [("Level", " 7 ")] "Level" (by decide)

/-- C6: with no backend credentials set and no local file present, read_party
returns the full default record with every canonical field equal to the empty
string, and write_party succeeds by writing the serialized record to the
local file. -/
theorem C6_no_backend_defaults (g : Except String String)
    (sc : Option (Except String (List (List String)))) (b1 b2 : Bool) (raw : Record) :
    readParty ⟨emptyConfig, g, sc, none⟩ = ([], .ok (PARTY_FIELDS.map (fun k => (k, ""))))
    ∧ writeParty ⟨emptyConfig, b1, b2, true⟩ raw =
        ([], some (.localWrite (serializeParty (normalizeWrite raw)))) :=
  ⟨rfl, rfl⟩

/-- C7: every successful read returns a record whose fields are exactly the
canonical fields in canonical order; projection of any raw mapping keeps the
canonical field list, takes each present key's (last) value, and defaults
absent keys to the empty string. -/
theorem C7_canonical_projection :
    (∀ (w : World) (ws : List String) (r : Record),
      readParty w = (ws, .ok r) → r.map Prod.fst = PARTY_FIELDS)
    ∧ (∀ raw : Record, (projectRecord raw).map Prod.fst = PARTY_FIELDS)
    ∧ (∀ (raw : Record) (k v : String), (k, v) ∈ projectRecord raw → v = dictGet raw k "")
    ∧ (∀ (raw : Record) (k : String), (∀ q ∈ raw, ¬(q.1 = k)) → dictGet raw k "" = "") := by
  refine ⟨readParty_keys, keys_projectRecord, ?_, ?_⟩
  · intro raw k v hmem
    rcases List.mem_map.mp hmem with ⟨k1, hk1, heq⟩
    have h1 : k1 = k := congrArg Prod.fst heq
    have h2 : dictGet raw k1 "" = v := congrArg Prod.snd heq
    subst h1
    exact h2.symm
  · intro raw k hk
    unfold dictGet
    have hfind : List.find? (fun p => p.1 == k) raw.reverse = none := by
      rw [List.find?_eq_none]
      intro q hq
      simp only [beq_iff_eq]
      exact hk q (List.mem_reverse.mp hq)
    rw [hfind]

/-- C7 witness: a concrete read produces a record keyed exactly by the
canonical fields, and a projection of a mapping with an extra and a missing
key yields the canonical fields in order. -/
theorem C7_canonical_projection_witness :
    defaults.map Prod.fst = PARTY_FIELDS ∧
    (projectRecord [("Extra", "x"), ("Level", "4")]).map Prod.fst = PARTY_FIELDS :=
  ⟨C7_canonical_projection.1 ⟨emptyConfig, .ok "", none, none⟩ [] defaults rfl,
   C7_canonical_projection.2.1 [("Extra", "x"), ("Level", "4")]⟩

/-- C8: a configured backend holding no data yet yields the field-default
record from read_party rather than an error: whitespace-only gist content
(with no other data source), a spreadsheet tab with fewer than two rows, and
an absent local file all produce the defaults. -/
theorem C8_empty_backend_defaults :
    (∀ text : String, pyStrip text = "" →
      readParty ⟨gistConfig, .ok text, none, none⟩ = ([], .ok defaults))
    ∧ (∀ vals : List (List String), vals.length < 2 →
      readParty ⟨sheetsConfig, .ok "", some (.ok vals), none⟩ = ([], .ok defaults))
    ∧ readParty ⟨emptyConfig, .ok "", none, none⟩ = ([], .ok defaults) := by
  refine ⟨?_, ?_, rfl⟩
  · intro text ht
    have h1 : readParty ⟨gistConfig, .ok text, none, none⟩ =
        (if pyStrip text = ""
         then readPartyFallback ⟨gistConfig, .ok text, none, none⟩
         else ([], .ok ((parseCsvRecord text).getD defaults))) := rfl
    rw [h1, if_pos ht]
    rfl
  · intro vals hlen
    have h1 : readParty ⟨sheetsConfig, .ok "", some (.ok vals), none⟩ =
        (if vals.length < 2 then ([], .ok defaults)
         else match vals with
           | header :: row :: _ => ([], .ok (projectRecord (List.zip header row)))
           | _ => ([], .ok defaults)) := rfl
    rw [h1, if_pos hlen]

/-- C8 witness: whitespace-only gist content and a header-only sheet both
read back as the default record. -/
theorem C8_empty_backend_defaults_witness :
    readParty ⟨gistConfig, .ok "  \r\n", none, none⟩ = ([], .ok defaults) ∧
    readParty ⟨sheetsConfig, .ok "", some (.ok [PARTY_FIELDS]), none⟩ = ([], .ok defaults) :=
  ⟨C8_empty_backend_defaults.1 "  \r\n" (by decide),
   C8_empty_backend_defaults.2.1 [PARTY_FIELDS] (by decide)⟩

/-- C9: a stored medium with a header row and several data rows reads back as
the projection of the first data row only, on every backend; and a write
serializes exactly one header row (the canonical fields) and exactly one data
row, independent of whatever was stored before. -/
theorem C9_single_row_persistence :
    (∀ (header r1 : List String) (rest : List (List String)),
      (∀ r ∈ header :: r1 :: rest, RowOK r) → header.length ≤ r1.length →
      readLocalFile (some (serializeRows (header :: r1 :: rest))) =
        projectRecord (List.zip header r1))
    ∧ (∀ (header r1 : List String) (rest : List (List String)),
      readParty ⟨sheetsConfig, .ok "", some (.ok (header :: r1 :: rest)), none⟩ =
        ([], .ok (projectRecord (List.zip header r1))))
    ∧ (∀ (header r1 : List String) (rest : List (List String)),
      (∀ r ∈ header :: r1 :: rest, RowOK r) → header.length ≤ r1.length →
      ¬(pyStrip (serializeRows (header :: r1 :: rest)) = "") →
      readParty ⟨gistConfig, .ok (serializeRows (header :: r1 :: rest)), none, none⟩ =
        ([], .ok (projectRecord (List.zip header r1))))
    ∧ (∀ raw : Record, (∀ k ∈ PARTY_FIELDS, CELL_OK (pyStrip (dictGet raw k "")) = true) →
      parseRows (serializeParty (normalizeWrite raw)) =
        [PARTY_FIELDS, partyValues (normalizeWrite raw)]) := by
  refine ⟨?_, fun header r1 rest => rfl, ?_, ?_⟩
  · intro header r1 rest h hlen
    have h2 : ∀ r ∈ header :: r1 :: rest, r ≠ [] ∧ ∀ s ∈ r, CELL_OK s = true :=
      fun r hr => ⟨(h r hr).1, (h r hr).2.2⟩
    have hrows := parseRows_serializeRows _ h2
    show (parseCsvRecord (serializeRows (header :: r1 :: rest))).getD defaults =
      projectRecord (List.zip header r1)
    unfold parseCsvRecord
    rw [hrows]
    rfl
  · intro header r1 rest h hlen hne
    have h2 : ∀ r ∈ header :: r1 :: rest, r ≠ [] ∧ ∀ s ∈ r, CELL_OK s = true :=
      fun r hr => ⟨(h r hr).1, (h r hr).2.2⟩
    have hrows := parseRows_serializeRows _ h2
    have hr := readParty_gist_ok ⟨gistConfig, .ok (serializeRows (header :: r1 :: rest)), none, none⟩
      (serializeRows (header :: r1 :: rest)) rfl rfl hne
    rw [hr]
    unfold parseCsvRecord
    rw [hrows]
    rfl
  · intro raw hok
    exact parseRows_serializeRows _ (rowOK_party raw hok)

/-- C9 witness: a three-row local file reads back as the projection of its
first data row, and a written record serializes to exactly the header row and
one data row. -/
theorem C9_single_row_persistence_witness :
    readLocalFile (some (serializeRows [PARTY_FIELDS, ["3", "", "", "", "", ""],
      ["9", "", "", "", "", ""]])) =
      projectRecord (List.zip PARTY_FIELDS ["3", "", "", "", "", ""]) ∧
    parseRows (serializeParty (normalizeWrite [("Level", "3")])) =
      [PARTY_FIELDS, partyValues (normalizeWrite [("Level", "3")])] :=
  ⟨C9_single_row_persistence.1 PARTY_FIELDS ["3", "", "", "", "", ""]
      [["9", "", "", "", "", ""]] (by simp only [RowOK]; decide) (by decide),
   C9_single_row_persistence.2.2.2 [("Level", "3")] (by decide)⟩

/-- C10: the access gate compares the whitespace-stripped configured secret
against the whitespace-stripped query parameter: a pair that agrees after
stripping (and is not whitespace-only) grants edit mode, while a
whitespace-only configured secret, from the environment or from the secrets
store, is treated as empty and grants edit mode to no parameter. -/
theorem C10_gate_whitespace :
    (∀ s p : String, pyStrip s = pyStrip p → ¬(pyStrip s = "") → canEdit s "" p = true)
    ∧ (∀ s p : String, pyStrip s = "" → canEdit s "" p = false)
    ∧ (∀ sk p : String, pyStrip sk = "" → canEdit "" sk p = false) := by
  refine ⟨?_, ?_, ?_⟩
  · intro s p heq hne
    have hs : s ≠ "" := by
      intro h0
      rw [h0, pyStrip_empty] at hne
      exact hne rfl
    unfold canEdit getEditKey
    rw [if_pos hs]
    simp only [Bool.and_eq_true, Bool.not_eq_true', beq_eq_false_iff_ne, ne_eq, beq_iff_eq]
    exact ⟨hne, heq.symm⟩
  · intro s p h0
    unfold canEdit getEditKey
    by_cases hs : s = ""
    · subst hs
      simp [pyStrip_empty]
    · rw [if_pos hs, h0]
      simp
  · intro sk p h0
    unfold canEdit getEditKey
    simp [h0]

/-- C10 witness: a secret and parameter differing only in surrounding
whitespace grant edit mode, and whitespace-only secrets grant nothing. -/
theorem C10_gate_whitespace_witness :
    canEdit "  gmkey " "" "gmkey  " = true ∧
    canEdit " \t " "" "anything" = false ∧
    canEdit "" " \r\n" "x" = false :=
  ⟨C10_gate_whitespace.1 "  gmkey " "gmkey  " (by decide) (by decide),
   C10_gate_whitespace.2.1 " \t " "anything" (by decide),
   C10_gate_whitespace.2.2 " \r\n" "x" (by decide)⟩

end PartyTracker
